import Mathlib

/-!
# Verification of the serial-packet framing codec

A shallow embedding of the Rust library `src/lib.rs` (functions
`make_packet`, `parser`, `calc_checksum`) over `List ℕ` byte sequences,
together with theorems settling the specification's claims.

Bytes are modelled as natural numbers; every byte the encoder emits is
below 256, and the decoder only compares bytes against constants, so no
wrap-around arithmetic arises beyond the `% 256` casts kept at the
places the source performs `as u8`.

Errors are modelled by the exact `&'static str` messages the source
returns, inside `Except String`.
-/

namespace SerialPacket

/-- XOR-fold over the byte list, from `calc_checksum` in the source:
`num = data[0]; for i in 1..len { num ^= data[i] }`.  The source indexes
`data[0]` unconditionally and would panic on an empty vector; both call
sites guarantee nonemptiness, and we return 0 on `[]`. -/
def calc_checksum (data : List ℕ) : ℕ :=
  match data with
  | [] => 0
  | d :: rest => rest.foldl (· ^^^ ·) d

/-- `make_packet` from the source.  The Rust function takes the payload by
`&mut Vec<u8>`; the result pair's second component models the caller's
vector after the call (`Vec::append` drains the argument on the success
path, the error paths never touch it). -/
def make_packet (data : List ℕ) : Except String (List ℕ) × List ℕ :=
  let data_len := data.length
  if data_len = 0 then
    (.error "The main data size is 0.", data)
  else if data_len > 0x7F then
    (.error "The data size exceeds the maximum value that can be sent in this packet.", data)
  else
    (.ok ([0xA5, 0x5A,
           (0x80 ||| (data_len >>> 8)) % 256,
           (0xFF &&& data_len) % 256,
           0xA0] ++ data ++ [calc_checksum data, 0x04]),
     [])

/-- The header-search loop of `parser`:
`for _ in offset..(packet_len - 1) { if packet[i] == 0xA5 && packet[i+1] == 0x5A { break } ; i += 1 }`.
`fuel` is the iteration count `packet_len - 1 - offset` of the Rust `for`
range; `some i` models `header_flag = true` with `head_pos = i`. -/
def findHeader (packet : List ℕ) (i : ℕ) : ℕ → Option ℕ
  | 0 => none
  | fuel + 1 =>
    if packet.getD i 0 = 0xA5 ∧ packet.getD (i + 1) 0 = 0x5A then some i
    else findHeader packet (i + 1) fuel

/-- The part of `parser` that runs after the header-search loop has set
`head_pos` (source lines after the loop).  Index arithmetic follows the
source's single cursor `i` (here expanded to explicit offsets from
`head_pos`): after the header `i = head_pos + 2`; the length field sits at
`i`, `i+1`; the constant `0xA0` at `i+2`; the payload at `i+3 ..`;
checksum and footer right after it. -/
def parseAt (packet : List ℕ) (head_pos : ℕ) :
    Except String (List ℕ × ℕ × ℕ) :=
  let packet_len := packet.length
  let i := head_pos + 2
  if packet_len - i < 3 then
    .error "Data size part and constant part do not fit in buffer."
  else if ¬ (packet.getD i 0 &&& 0x80 = 0x80) then
    .error "Syntax error (The 3rd byte MSB is not 1)."
  else
    let data_size := ((packet.getD i 0 &&& 0x7F) <<< 8) ||| packet.getD (i + 1) 0
    if data_size = 0 then
      .error "Main data part is None."
    else if ¬ (packet.getD (i + 2) 0 = 0xA0) then
      .error "Syntax error (The 5th of the packet is not 0xA0)."
    else if packet_len - (i + 2) < data_size + 3 then
      .error "The data after the main data section does not fit in the buffer."
    else
      let main_data := (packet.drop (i + 3)).take data_size
      if ¬ (calc_checksum main_data ^^^ packet.getD (i + 3 + data_size) 0 = 0) then
        .error "Checksum mismatch."
      else if ¬ (packet.getD (i + 4 + data_size) 0 = 0x04) then
        .error "Footer does not exist."
      else
        .ok (main_data, head_pos, i + 4 + data_size)

/-- `parser` from the source, byte for byte: the bounds prechecks, the
header-search loop (`findHeader`), then the field walk (`parseAt`). -/
def parser (packet : List ℕ) (offset : ℕ) :
    Except String (List ℕ × ℕ × ℕ) :=
  let packet_len := packet.length
  if packet_len ≤ offset then
    .error "Packet size shorter than offset position."
  else if packet_len ≤ 7 then
    .error "Read data is 7Byte or less."
  else
    match findHeader packet offset (packet_len - 1 - offset) with
    | none => .error "Header does not exist."
    | some head_pos => parseAt packet head_pos

/-!
## Instrumented scanner

The Rust scanner indexes the buffer with `packet[idx]`, which panics when
`idx` is out of bounds.  The `…S` variants below perform exactly the same
computation but read every byte through `List.get?`; an out-of-bounds read
aborts the whole computation with `none` (the model of a panic).  The
safety claim is that the instrumented scanner never returns `none` and
agrees with `parser` on every input.
-/

/-- `main_data.push(packet[j]) for j in start..start+count`, with each read
instrumented. -/
def readBytes (packet : List ℕ) : ℕ → ℕ → Option (List ℕ)
  | _, 0 => some []
  | start, count + 1 =>
    match packet.get? start with
    | none => none
    | some b =>
      match readBytes packet (start + 1) count with
      | none => none
      | some rest => some (b :: rest)

/-- `findHeader` with instrumented reads, following the source's
short-circuit order: `packet[i+1]` is only read when `packet[i] == 0xA5`. -/
def findHeaderS (packet : List ℕ) : ℕ → ℕ → Option (Option ℕ)
  | _, 0 => some none
  | i, fuel + 1 =>
    match packet.get? i with
    | none => none
    | some a =>
      if a = 0xA5 then
        match packet.get? (i + 1) with
        | none => none
        | some b =>
          if b = 0x5A then some (some i)
          else findHeaderS packet (i + 1) fuel
      else findHeaderS packet (i + 1) fuel

/-- `parseAt` with instrumented reads, in the source's exact read order. -/
def parseAtS (packet : List ℕ) (head_pos : ℕ) :
    Option (Except String (List ℕ × ℕ × ℕ)) :=
  let packet_len := packet.length
  let i := head_pos + 2
  if packet_len - i < 3 then
    some (.error "Data size part and constant part do not fit in buffer.")
  else
    match packet.get? i with
    | none => none
    | some b0 =>
      if ¬ (b0 &&& 0x80 = 0x80) then
        some (.error "Syntax error (The 3rd byte MSB is not 1).")
      else
        match packet.get? (i + 1) with
        | none => none
        | some b1 =>
          let data_size := ((b0 &&& 0x7F) <<< 8) ||| b1
          if data_size = 0 then
            some (.error "Main data part is None.")
          else
            match packet.get? (i + 2) with
            | none => none
            | some b2 =>
              if ¬ (b2 = 0xA0) then
                some (.error "Syntax error (The 5th of the packet is not 0xA0).")
              else if packet_len - (i + 2) < data_size + 3 then
                some (.error "The data after the main data section does not fit in the buffer.")
              else
                match readBytes packet (i + 3) data_size with
                | none => none
                | some main_data =>
                  match packet.get? (i + 3 + data_size) with
                  | none => none
                  | some bcs =>
                    if ¬ (calc_checksum main_data ^^^ bcs = 0) then
                      some (.error "Checksum mismatch.")
                    else
                      match packet.get? (i + 4 + data_size) with
                      | none => none
                      | some bft =>
                        if ¬ (bft = 0x04) then
                          some (.error "Footer does not exist.")
                        else
                          some (.ok (main_data, head_pos, i + 4 + data_size))

/-- `parser` with instrumented reads. -/
def parserS (packet : List ℕ) (offset : ℕ) :
    Option (Except String (List ℕ × ℕ × ℕ)) :=
  let packet_len := packet.length
  if packet_len ≤ offset then
    some (.error "Packet size shorter than offset position.")
  else if packet_len ≤ 7 then
    some (.error "Read data is 7Byte or less.")
  else
    match findHeaderS packet offset (packet_len - 1 - offset) with
    | none => none
    | some none => some (.error "Header does not exist.")
    | some (some head_pos) => parseAtS packet head_pos

end SerialPacket

namespace SerialPacket

/-! ## Helper lemmas about `calc_checksum` -/

theorem foldl_xor_shift (l : List ℕ) :
    ∀ a m : ℕ, l.foldl (· ^^^ ·) (a ^^^ m) = (l.foldl (· ^^^ ·) a) ^^^ m := by
  induction l with
  | nil => intro a m; rfl
  | cons x xs ih =>
    intro a m
    simp only [List.foldl_cons]
    rw [Nat.xor_assoc, Nat.xor_comm m x, ← Nat.xor_assoc]
    exact ih (a ^^^ x) m

theorem calc_checksum_eq_foldl (l : List ℕ) :
    calc_checksum l = l.foldl (· ^^^ ·) 0 := by
  cases l with
  | nil => rfl
  | cons d rest =>
    simp only [calc_checksum, List.foldl_cons, Nat.zero_xor]

/-- Flipping the bits selected by mask `m` inside one list element shifts the
XOR-fold by exactly `m`. -/
theorem foldl_xor_set (l : List ℕ) :
    ∀ (j : ℕ) (m a : ℕ), j < l.length →
      (l.set j (l.getD j 0 ^^^ m)).foldl (· ^^^ ·) a = (l.foldl (· ^^^ ·) a) ^^^ m := by
  induction l with
  | nil => intro j m a h; simp at h
  | cons x xs ih =>
    intro j m a h
    cases j with
    | zero =>
      simp only [List.set_cons_zero, List.getD_cons_zero, List.foldl_cons]
      rw [← Nat.xor_assoc, foldl_xor_shift]
    | succ n =>
      simp only [List.set_cons_succ, List.getD_cons_succ, List.foldl_cons]
      exact ih n m (a ^^^ x) (by simpa using h)

theorem calc_checksum_set (P : List ℕ) (j m : ℕ) (h : j < P.length) :
    calc_checksum (P.set j (P.getD j 0 ^^^ m)) = calc_checksum P ^^^ m := by
  rw [calc_checksum_eq_foldl, calc_checksum_eq_foldl]
  exact foldl_xor_set P j m 0 h

/-! ## Helper lemmas about `findHeader` -/

theorem findHeader_some_of (packet : List ℕ) (p : ℕ)
    (hA : packet.getD p 0 = 0xA5) (hB : packet.getD (p + 1) 0 = 0x5A) :
    ∀ (fuel i : ℕ), i ≤ p → p < i + fuel →
      (∀ j, i ≤ j → j < p →
        ¬(packet.getD j 0 = 0xA5 ∧ packet.getD (j + 1) 0 = 0x5A)) →
      findHeader packet i fuel = some p := by
  intro fuel
  induction fuel with
  | zero => intro i h1 h2 _; omega
  | succ n ih =>
    intro i h1 h2 hmin
    by_cases hip : i = p
    · subst hip
      simp only [findHeader, if_pos (And.intro hA hB)]
    · have hlt : i < p := lt_of_le_of_ne h1 hip
      have hni : ¬(packet.getD i 0 = 0xA5 ∧ packet.getD (i + 1) 0 = 0x5A) :=
        hmin i le_rfl hlt
      simp only [findHeader, if_neg hni]
      exact ih (i + 1) (by omega) (by omega) (fun j hj1 hj2 => hmin j (by omega) hj2)

theorem findHeader_none_of (packet : List ℕ) :
    ∀ (fuel i : ℕ),
      (∀ j, i ≤ j → j < i + fuel →
        ¬(packet.getD j 0 = 0xA5 ∧ packet.getD (j + 1) 0 = 0x5A)) →
      findHeader packet i fuel = none := by
  intro fuel
  induction fuel with
  | zero => intro i _; rfl
  | succ n ih =>
    intro i hno
    have hni : ¬(packet.getD i 0 = 0xA5 ∧ packet.getD (i + 1) 0 = 0x5A) :=
      hno i le_rfl (by omega)
    simp only [findHeader, if_neg hni]
    exact ih (i + 1) (fun j hj1 hj2 => hno j (by omega) (by omega))

theorem findHeader_some_elim (packet : List ℕ) :
    ∀ (fuel i p : ℕ), findHeader packet i fuel = some p →
      i ≤ p ∧ p < i + fuel ∧
      packet.getD p 0 = 0xA5 ∧ packet.getD (p + 1) 0 = 0x5A ∧
      (∀ j, i ≤ j → j < p →
        ¬(packet.getD j 0 = 0xA5 ∧ packet.getD (j + 1) 0 = 0x5A)) := by
  intro fuel
  induction fuel with
  | zero => intro i p h; simp [findHeader] at h
  | succ n ih =>
    intro i p h
    by_cases hi : packet.getD i 0 = 0xA5 ∧ packet.getD (i + 1) 0 = 0x5A
    · simp only [findHeader, if_pos hi, Option.some.injEq] at h
      subst h
      exact ⟨le_rfl, by omega, hi.1, hi.2, fun j hj1 hj2 => absurd hj2 (by omega)⟩
    · simp only [findHeader, if_neg hi] at h
      obtain ⟨h1, h2, h3, h4, h5⟩ := ih (i + 1) p h
      refine ⟨by omega, by omega, h3, h4, fun j hj1 hj2 => ?_⟩
      rcases Nat.eq_or_lt_of_le hj1 with rfl | hj
      · exact hi
      · exact h5 j (by omega) hj2

/-! ## Access helpers -/

theorem getD_append_add (A l : List ℕ) (n k : ℕ) (h : A.length = n) :
    (A ++ l).getD (n + k) 0 = l.getD k 0 := by
  subst h
  rw [List.getD_append_right _ _ _ _ (Nat.le_add_right _ _), Nat.add_sub_cancel_left]

theorem getD_append_lt (A l : List ℕ) (k : ℕ) (h : k < A.length) :
    (A ++ l).getD k 0 = A.getD k 0 := List.getD_append _ _ _ _ h

/-! ## The master lemma: scanning a buffer that embeds one syntactic frame

`pre ++ [0xA5, 0x5A, hb, lb, 0xA0] ++ P ++ [cs, ft] ++ suf` where the
noise part `pre` contains no header pair, the length field `hb lb`
decodes to `P.length`, and checksum byte `cs` and footer byte `ft` are
arbitrary: the scan reaches the checksum/footer validation with exactly
`P` extracted. -/

theorem parser_frame (pre P suf : List ℕ) (hb lb cs ft : ℕ)
    (hN : ¬ P.length = 0)
    (hhb : hb &&& 0x80 = 0x80)
    (hds : ((hb &&& 0x7F) <<< 8) ||| lb = P.length)
    (hpre : ∀ j, j < pre.length →
      ¬((pre ++ 0xA5 :: 0x5A :: hb :: lb :: 0xA0 :: (P ++ cs :: ft :: suf)).getD j 0 = 0xA5 ∧
        (pre ++ 0xA5 :: 0x5A :: hb :: lb :: 0xA0 :: (P ++ cs :: ft :: suf)).getD (j + 1) 0 = 0x5A)) :
    parser (pre ++ 0xA5 :: 0x5A :: hb :: lb :: 0xA0 :: (P ++ cs :: ft :: suf)) 0 =
      if ¬ (calc_checksum P ^^^ cs = 0) then .error "Checksum mismatch."
      else if ¬ (ft = 0x04) then .error "Footer does not exist."
      else .ok (P, pre.length, pre.length + P.length + 6) := by
  set buf := pre ++ 0xA5 :: 0x5A :: hb :: lb :: 0xA0 :: (P ++ cs :: ft :: suf) with hbuf
  have hlen : buf.length = pre.length + P.length + 7 + suf.length := by
    rw [hbuf]; simp [List.length_append]; omega
  have hgd : ∀ k, buf.getD (pre.length + k) 0 =
      (0xA5 :: 0x5A :: hb :: lb :: 0xA0 :: (P ++ cs :: ft :: suf)).getD k 0 := by
    intro k; rw [hbuf]; exact getD_append_add _ _ _ k rfl
  have g0 : buf.getD pre.length 0 = 0xA5 := by simpa [List.getD] using hgd 0
  have g1 : buf.getD (pre.length + 1) 0 = 0x5A := by simpa [List.getD] using hgd 1
  have g2 : buf.getD (pre.length + 2) 0 = hb := by simpa [List.getD] using hgd 2
  have g3 : buf.getD (pre.length + 2 + 1) 0 = lb := by
    rw [show pre.length + 2 + 1 = pre.length + 3 from by omega]
    simpa [List.getD] using hgd 3
  have g4 : buf.getD (pre.length + 2 + 2) 0 = 0xA0 := by
    rw [show pre.length + 2 + 2 = pre.length + 4 from by omega]
    simpa [List.getD] using hgd 4
  have hassoc : buf = (pre ++ [0xA5, 0x5A, hb, lb, 0xA0]) ++ (P ++ cs :: ft :: suf) := by
    rw [hbuf]; simp
  have hlen5 : (pre ++ [0xA5, 0x5A, hb, lb, 0xA0]).length = pre.length + 5 := by simp
  have gcs : buf.getD (pre.length + 2 + 3 + P.length) 0 = cs := by
    rw [hassoc, show pre.length + 2 + 3 + P.length = (pre.length + 5) + P.length from by omega,
      getD_append_add _ _ _ _ hlen5,
      List.getD_append_right _ _ _ _ le_rfl, Nat.sub_self]
    rfl
  have gft : buf.getD (pre.length + 2 + 4 + P.length) 0 = ft := by
    rw [hassoc, show pre.length + 2 + 4 + P.length = (pre.length + 5) + (P.length + 1) from by omega,
      getD_append_add _ _ _ _ hlen5,
      List.getD_append_right _ _ _ _ (Nat.le_add_right _ _), Nat.add_sub_cancel_left]
    rfl
  have gmd : (buf.drop (pre.length + 2 + 3)).take P.length = P := by
    rw [hassoc, show pre.length + 2 + 3 = pre.length + 5 from by omega,
      List.drop_left' hlen5, List.take_left]
  have hfind : findHeader buf 0 (buf.length - 1 - 0) = some pre.length :=
    findHeader_some_of buf pre.length g0 g1 (buf.length - 1 - 0) 0 (Nat.zero_le _)
      (by omega) (fun j _ hj => hpre j hj)
  have hstep : parser buf 0 = parseAt buf pre.length := by
    simp only [parser]
    rw [if_neg (by omega : ¬ buf.length ≤ 0), if_neg (by omega : ¬ buf.length ≤ 7), hfind]
  rw [hstep]
  simp only [parseAt]
  rw [if_neg (by omega : ¬ buf.length - (pre.length + 2) < 3), g2,
    if_neg (not_not_intro hhb), g3, hds, if_neg hN, g4,
    if_neg (not_not_intro rfl),
    if_neg (by omega : ¬ buf.length - (pre.length + 2 + 2) < P.length + 3),
    gmd, gcs, gft,
    show pre.length + 2 + 4 + P.length = pre.length + P.length + 6 from by omega]

/-- On a payload of legal size the encoder returns exactly the frame
`[0xA5, 0x5A, 0x80, len, 0xA0] ++ P ++ [checksum, 0x04]` (for `len ≤ 127`
the high length byte is always `0x80`). -/
theorem make_packet_ok_fst (P : List ℕ) (h1 : ¬ P.length = 0) (h7 : P.length ≤ 127) :
    (make_packet P).1 =
      .ok (0xA5 :: 0x5A :: 0x80 :: P.length :: 0xA0 :: (P ++ [calc_checksum P, 0x04])) := by
  have hsh : P.length >>> 8 = 0 := by rw [Nat.shiftRight_eq_div_pow]; omega
  have hb2 : (0x80 ||| P.length >>> 8) % 256 = 0x80 := by rw [hsh]; rfl
  have hb3 : (0xFF &&& P.length) % 256 = P.length := by
    rw [Nat.and_comm, show (0xFF : ℕ) = 2 ^ 8 - 1 from rfl,
      Nat.and_pow_two_sub_one_of_lt_two_pow (by omega), Nat.mod_eq_of_lt (by omega)]
  simp only [make_packet, if_neg h1, if_neg (by omega : ¬ P.length > 0x7F), hb2, hb3]
  simp [List.append_assoc]

-- sanity: the repository's own unit test scenario
example :
    parser [0x45, 0xA5, 0x22, 0x32,
            0xA5, 0x5A, 0x80, 0x04, 0xA0, 0x01, 0x23, 0xAB, 0xCD, 0x44, 0x04] 0
      = .ok ([0x01, 0x23, 0xAB, 0xCD], 4, 14) := rfl

example : (make_packet [0x01]).1 = .ok [0xA5, 0x5A, 0x80, 0x01, 0xA0, 0x01, 0x01, 0x04] := rfl

example : parser [0xA5, 0x5A, 0xA5, 0x5A, 0x80, 0x01, 0xA0, 0x01, 0x01, 0x04] 0
    = .error "Syntax error (The 5th of the packet is not 0xA0)." := rfl

example : parser [0, 0, 0, 0, 0, 0, 0, 0] 3 = .error "Header does not exist." := rfl

/-! ## The claims -/

/-- C1: for every payload `P` with `1 ≤ len P ≤ 127`, `make_packet`
succeeds, and parsing the resulting frame from offset 0 succeeds with
payload `P`, header index 0, and frame-end index `len P + 6` — the index
of the footer byte itself (inclusive). -/
theorem c1_round_trip (P : List ℕ) (h1 : 1 ≤ P.length) (h7 : P.length ≤ 127) :
    ∃ frame, (make_packet P).1 = .ok frame ∧
      parser frame 0 = .ok (P, 0, P.length + 6) := by
  refine ⟨_, make_packet_ok_fst P (by omega) h7, ?_⟩
  have hp := parser_frame [] P [] 0x80 P.length (calc_checksum P) 0x04
    (by omega) (by decide)
    (by rw [show ((0x80 &&& 0x7F : ℕ) <<< 8) = 0 from rfl, Nat.zero_or])
    (fun j hj => absurd hj (by simp))
  simp only [List.nil_append, List.length_nil, Nat.zero_add] at hp
  rw [hp, Nat.xor_self]
  simp

/-- Witness for C1 at the payload `[0x01, 0x23]`. -/
theorem c1_round_trip_witness :
    ∃ frame, (make_packet [0x01, 0x23]).1 = .ok frame ∧
      parser frame 0 = .ok ([0x01, 0x23], 0, 8) :=
  c1_round_trip [0x01, 0x23] (by decide) (by decide)

/-- C4: for `1 ≤ N ≤ 127` the encoder emits exactly
`[0xA5, 0x5A, 0x80 ||| (N >>> 8), N &&& 0xFF, 0xA0] ++ payload ++
[XOR of payload bytes, 0x04]`, of total length `N + 7`. -/
theorem c4_frame_layout (P : List ℕ) (h1 : 1 ≤ P.length) (h7 : P.length ≤ 127) :
    (make_packet P).1 =
      .ok ([0xA5, 0x5A, 0x80 ||| (P.length >>> 8), P.length &&& 0xFF, 0xA0] ++
        P ++ [P.foldl (· ^^^ ·) 0, 0x04]) ∧
    ([0xA5, 0x5A, 0x80 ||| (P.length >>> 8), P.length &&& 0xFF, 0xA0] ++
        P ++ [P.foldl (· ^^^ ·) 0, 0x04]).length = P.length + 7 := by
  have e2 : 0x80 ||| (P.length >>> 8) = 0x80 := by
    rw [show P.length >>> 8 = 0 by rw [Nat.shiftRight_eq_div_pow]; omega]
    rfl
  have e3 : P.length &&& 0xFF = P.length := by
    rw [show (0xFF : ℕ) = 2 ^ 8 - 1 from rfl,
      Nat.and_pow_two_sub_one_of_lt_two_pow (by omega)]
  constructor
  · rw [make_packet_ok_fst P (by omega) h7, e2, e3, ← calc_checksum_eq_foldl]
    simp [List.append_assoc]
  · simp only [List.length_append, List.length_cons, List.length_nil]
    omega

/-- Witness for C4 at the payload `[0x01, 0x23]`. -/
theorem c4_frame_layout_witness :
    (make_packet [0x01, 0x23]).1 =
      .ok ([0xA5, 0x5A, 0x80 ||| (2 >>> 8), 2 &&& 0xFF, 0xA0] ++
        [0x01, 0x23] ++ [[0x01, 0x23].foldl (· ^^^ ·) 0, 0x04]) ∧
    ([0xA5, 0x5A, 0x80 ||| (2 >>> 8), 2 &&& 0xFF, 0xA0] ++
        [0x01, 0x23] ++ [[0x01, 0x23].foldl (· ^^^ ·) 0, 0x04]).length = 2 + 7 :=
  c4_frame_layout [0x01, 0x23] (by decide) (by decide)

/-- C5: the encoder rejects the empty payload with the empty-payload
error, rejects every payload longer than 127 bytes (in particular one of
length 128) with the too-large error, and succeeds on a 127-byte payload. -/
theorem c5_encoder_boundaries :
    (make_packet []).1 = .error "The main data size is 0." ∧
    (∀ P : List ℕ, 127 < P.length →
      (make_packet P).1 =
        .error "The data size exceeds the maximum value that can be sent in this packet.") ∧
    (∀ P : List ℕ, P.length = 127 → ∃ frame, (make_packet P).1 = .ok frame) := by
  refine ⟨rfl, ?_, ?_⟩
  · intro P hP
    simp only [make_packet, if_neg (by omega : ¬ P.length = 0),
      if_pos (by omega : P.length > 0x7F)]
  · intro P hP
    exact ⟨_, make_packet_ok_fst P (by omega) (by omega)⟩

/-- Witness for C5 at a 128-byte and a 127-byte payload. -/
theorem c5_encoder_boundaries_witness :
    (make_packet (List.replicate 128 0)).1 =
      .error "The data size exceeds the maximum value that can be sent in this packet." ∧
    ∃ frame, (make_packet (List.replicate 127 0)).1 = .ok frame :=
  ⟨c5_encoder_boundaries.2.1 _ (by simp),
   c5_encoder_boundaries.2.2 _ (by simp)⟩

/-- C9: `make_packet` takes its payload by mutable reference; on success
the bytes are moved out (`Vec::append`), leaving the caller's vector
empty, while on either error the caller's vector is untouched.  The model
returns the caller's vector as the second component. -/
theorem c9_argument_effect (data : List ℕ) :
    ((make_packet data).1.isOk = true → (make_packet data).2 = []) ∧
    ((make_packet data).1.isOk = false → (make_packet data).2 = data) := by
  by_cases h0 : data.length = 0
  · refine ⟨fun h => ?_, fun _ => ?_⟩
    · simp only [make_packet, if_pos h0, Except.isOk, Except.toBool] at h
      exact Bool.noConfusion h
    · simp only [make_packet, if_pos h0]
  · by_cases h127 : data.length > 0x7F
    · refine ⟨fun h => ?_, fun _ => ?_⟩
      · simp only [make_packet, if_neg h0, if_pos h127, Except.isOk, Except.toBool] at h
        exact Bool.noConfusion h
      · simp only [make_packet, if_neg h0, if_pos h127]
    · refine ⟨fun _ => ?_, fun h => ?_⟩
      · simp only [make_packet, if_neg h0, if_neg h127]
      · simp only [make_packet, if_neg h0, if_neg h127, Except.isOk, Except.toBool] at h
        exact Bool.noConfusion h

set_option maxRecDepth 10000 in
/-- Witness for C9: a success leaves the argument empty, an oversize
payload is left unchanged. -/
theorem c9_argument_effect_witness :
    (make_packet [0x01]).2 = [] ∧
    (make_packet (List.replicate 200 7)).2 = List.replicate 200 7 :=
  ⟨(c9_argument_effect [0x01]).1 rfl,
   (c9_argument_effect (List.replicate 200 7)).2 rfl⟩

/-- `parseAt` can fail in many ways, but never with the short-buffer
precheck message: that error is issued before the header search only. -/
theorem parseAt_ne_short (packet : List ℕ) (p : ℕ) :
    ¬ parseAt packet p = .error "Read data is 7Byte or less." := by
  intro h
  simp only [parseAt] at h
  split_ifs at h <;> simp_all

/-- C2 counterexample: an 8-byte buffer scanned from offset 3 has only 5
remaining bytes (≤ 7), yet the scanner does not fail with the
buffer-too-short error — the precheck compares the whole buffer length,
not the remaining length from the offset. -/
theorem c2_threshold_cex :
    3 < ([0, 0, 0, 0, 0, 0, 0, 0] : List ℕ).length ∧
    ([0, 0, 0, 0, 0, 0, 0, 0] : List ℕ).length - 3 ≤ 7 ∧
    parser [0, 0, 0, 0, 0, 0, 0, 0] 3 = .error "Header does not exist." ∧
    ¬ parser [0, 0, 0, 0, 0, 0, 0, 0] 3 = .error "Read data is 7Byte or less." := by
  refine ⟨by decide, by decide, rfl, ?_⟩
  rw [show parser [0, 0, 0, 0, 0, 0, 0, 0] 3 = .error "Header does not exist." from rfl]
  simp

/-- C2 amended: for every buffer and offset with `offset < buffer length`,
the scanner fails with the buffer-too-short error exactly when the total
buffer length is ≤ 7; the offset is not taken into account. -/
theorem c2_short_buffer_precheck (packet : List ℕ) (offset : ℕ)
    (h : offset < packet.length) :
    parser packet offset = .error "Read data is 7Byte or less." ↔
      packet.length ≤ 7 := by
  constructor
  · intro hp
    by_contra hgt
    simp only [parser, if_neg (by omega : ¬ packet.length ≤ offset), if_neg hgt] at hp
    cases hfind : findHeader packet offset (packet.length - 1 - offset) with
    | none => rw [hfind] at hp; exact absurd hp (by simp)
    | some p => rw [hfind] at hp; exact parseAt_ne_short packet p hp
  · intro h7
    simp only [parser, if_neg (by omega : ¬ packet.length ≤ offset), if_pos h7]

/-- Witness for the amended C2 on a 7-byte buffer at offset 0. -/
theorem c2_short_buffer_precheck_witness :
    parser [0, 0, 0, 0, 0, 0, 0] 0 = .error "Read data is 7Byte or less." ↔
      ([0, 0, 0, 0, 0, 0, 0] : List ℕ).length ≤ 7 :=
  c2_short_buffer_precheck [0, 0, 0, 0, 0, 0, 0] 0 (by decide)

/-- C3 counterexample: the claim fails for arbitrary prefixes.  A prefix
that itself contains the header pair `0xA5 0x5A` makes the scanner lock
onto the noise header: the length field then decodes from frame bytes,
the marker check fails, and no payload is returned at all. -/
theorem c3_noise_cex :
    (make_packet [0x01]).1 = .ok [0xA5, 0x5A, 0x80, 0x01, 0xA0, 0x01, 0x01, 0x04] ∧
    parser ([0xA5, 0x5A] ++ [0xA5, 0x5A, 0x80, 0x01, 0xA0, 0x01, 0x01, 0x04] ++ []) 0
      = .error "Syntax error (The 5th of the packet is not 0xA0)." :=
  ⟨rfl, rfl⟩

/-- C3 amended: prepending noise that contains no `0xA5 0x5A` pair, and
appending arbitrary noise, does not change the extracted payload, and the
returned header index is the exact position of the frame's header. -/
theorem c3_noise_tolerance (P pre suf : List ℕ)
    (h1 : 1 ≤ P.length) (h7 : P.length ≤ 127)
    (hpre : ∀ j, j + 1 < pre.length →
      ¬(pre.getD j 0 = 0xA5 ∧ pre.getD (j + 1) 0 = 0x5A)) :
    ∀ frame, (make_packet P).1 = .ok frame →
      parser (pre ++ frame ++ suf) 0 =
        .ok (P, pre.length, pre.length + P.length + 6) := by
  intro frame hframe
  rw [make_packet_ok_fst P (by omega) h7] at hframe
  have hf := Except.ok.inj hframe
  subst hf
  have hassoc :
      pre ++ (0xA5 :: 0x5A :: 0x80 :: P.length :: 0xA0 :: (P ++ [calc_checksum P, 0x04])) ++ suf
        = pre ++ 0xA5 :: 0x5A :: 0x80 :: P.length :: 0xA0 ::
            (P ++ calc_checksum P :: 0x04 :: suf) := by
    simp [List.append_assoc]
  rw [hassoc]
  have hpre' : ∀ j, j < pre.length →
      ¬((pre ++ 0xA5 :: 0x5A :: 0x80 :: P.length :: 0xA0 ::
          (P ++ calc_checksum P :: 0x04 :: suf)).getD j 0 = 0xA5 ∧
        (pre ++ 0xA5 :: 0x5A :: 0x80 :: P.length :: 0xA0 ::
          (P ++ calc_checksum P :: 0x04 :: suf)).getD (j + 1) 0 = 0x5A) := by
    intro j hj hpair
    obtain ⟨hp1, hp2⟩ := hpair
    by_cases hj1 : j + 1 < pre.length
    · rw [getD_append_lt _ _ _ (by omega)] at hp1
      rw [getD_append_lt _ _ _ hj1] at hp2
      exact hpre j hj1 ⟨hp1, hp2⟩
    · have hje : j + 1 = pre.length := by omega
      rw [hje] at hp2
      have hhd : (pre ++ 0xA5 :: 0x5A :: 0x80 :: P.length :: 0xA0 ::
          (P ++ calc_checksum P :: 0x04 :: suf)).getD pre.length 0 = 0xA5 := by
        simpa using getD_append_add pre
          (0xA5 :: 0x5A :: 0x80 :: P.length :: 0xA0 ::
            (P ++ calc_checksum P :: 0x04 :: suf)) pre.length 0 rfl
      rw [hhd] at hp2
      exact absurd hp2 (by norm_num)
  have hp := parser_frame pre P suf 0x80 P.length (calc_checksum P) 0x04
    (by omega) (by decide)
    (by rw [show ((0x80 &&& 0x7F : ℕ) <<< 8) = 0 from rfl, Nat.zero_or]) hpre'
  rw [hp, Nat.xor_self]
  simp

/-- Witness for the amended C3: one noise byte in front, one behind. -/
theorem c3_noise_tolerance_witness :
    parser ([0x00] ++ [0xA5, 0x5A, 0x80, 0x01, 0xA0, 0x07, 0x07, 0x04] ++ [0xFF]) 0
      = .ok ([0x07], 1, 8) :=
  c3_noise_tolerance [0x07] [0x00] [0xFF] (by decide) (by decide)
    (by intro j hj; simp at hj) _ rfl

/-- C6: flipping any single bit of any payload byte of an encoded frame
(checksum byte, header, length, marker and footer untouched) makes the
scan fail with the checksum-mismatch error. -/
theorem c6_checksum_bitflip (P : List ℕ) (j k : ℕ)
    (h1 : 1 ≤ P.length) (h7 : P.length ≤ 127) (hj : j < P.length) (hk : k < 8) :
    ∀ frame, (make_packet P).1 = .ok frame →
      parser (frame.set (5 + j) (frame.getD (5 + j) 0 ^^^ 2 ^ k)) 0
        = .error "Checksum mismatch." := by
  intro frame hframe
  rw [make_packet_ok_fst P (by omega) h7] at hframe
  have hf := Except.ok.inj hframe
  subst hf
  rw [Nat.add_comm 5 j]
  have hgd5 : (0xA5 :: 0x5A :: 0x80 :: P.length :: 0xA0 ::
      (P ++ [calc_checksum P, 0x04])).getD (j + 5) 0
        = (P ++ [calc_checksum P, 0x04]).getD j 0 := rfl
  have hset5 : ∀ v, (0xA5 :: 0x5A :: 0x80 :: P.length :: 0xA0 ::
      (P ++ [calc_checksum P, 0x04])).set (j + 5) v
        = 0xA5 :: 0x5A :: 0x80 :: P.length :: 0xA0 ::
            ((P ++ [calc_checksum P, 0x04]).set j v) := fun v => rfl
  rw [hgd5, hset5, getD_append_lt _ _ _ hj, List.set_append_left _ _ hj]
  have hlen' : (P.set j (P.getD j 0 ^^^ 2 ^ k)).length = P.length := by simp
  have hp := parser_frame [] (P.set j (P.getD j 0 ^^^ 2 ^ k)) [] 0x80 P.length
    (calc_checksum P) 0x04
    (by rw [hlen']; omega) (by decide)
    (by rw [show ((0x80 &&& 0x7F : ℕ) <<< 8) = 0 from rfl, Nat.zero_or, hlen'])
    (fun j hj => absurd hj (by simp))
  simp only [List.nil_append] at hp
  rw [hp, calc_checksum_set P j (2 ^ k) hj,
    Nat.xor_comm (calc_checksum P) (2 ^ k), Nat.xor_assoc, Nat.xor_self, Nat.xor_zero,
    if_pos (pow_pos (by norm_num : (0 : ℕ) < 2) k).ne']

/-- Witness for C6: flip bit 0 of the second payload byte of the frame
for `[0x01, 0x02]`. -/
theorem c6_checksum_bitflip_witness :
    parser ([0xA5, 0x5A, 0x80, 0x02, 0xA0, 0x01, 0x02, 0x03, 0x04].set 6
      ([0xA5, 0x5A, 0x80, 0x02, 0xA0, 0x01, 0x02, 0x03, 0x04].getD 6 0 ^^^ 2 ^ 0)) 0
      = .error "Checksum mismatch." :=
  c6_checksum_bitflip [0x01, 0x02] 1 0 (by decide) (by decide) (by decide) (by decide)
    _ rfl

/-- In a successful parse the returned header position is the position
the header search produced. -/
theorem parseAt_ok_head (packet : List ℕ) (p : ℕ) (pd : List ℕ) (h t : ℕ)
    (hok : parseAt packet p = .ok (pd, h, t)) : h = p := by
  simp only [parseAt] at hok
  split_ifs at hok <;> simp_all

/-- C7: the scanner takes the first position `i ≥ offset` with
`packet[i] = 0xA5` and `packet[i+1] = 0x5A` as the header start, fails
with the header-not-found error when no such pair exists, and on the
repository's literal scenario returns payload `[0x01, 0x23, 0xAB, 0xCD]`,
header index 4 and end index 14. -/
theorem c7_header_search :
    (∀ (packet : List ℕ) (offset : ℕ), offset < packet.length → 7 < packet.length →
      (∀ j, offset ≤ j → j + 1 < packet.length →
        ¬(packet.getD j 0 = 0xA5 ∧ packet.getD (j + 1) 0 = 0x5A)) →
      parser packet offset = .error "Header does not exist.") ∧
    (∀ (packet : List ℕ) (offset : ℕ) (pd : List ℕ) (h t : ℕ),
      parser packet offset = .ok (pd, h, t) →
      offset ≤ h ∧ packet.getD h 0 = 0xA5 ∧ packet.getD (h + 1) 0 = 0x5A ∧
      ∀ j, offset ≤ j → j < h →
        ¬(packet.getD j 0 = 0xA5 ∧ packet.getD (j + 1) 0 = 0x5A)) ∧
    parser [0x45, 0xA5, 0x22, 0x32, 0xA5, 0x5A, 0x80, 0x04, 0xA0, 0x01,
      0x23, 0xAB, 0xCD, 0x44, 0x04] 0 = .ok ([0x01, 0x23, 0xAB, 0xCD], 4, 14) := by
  refine ⟨?_, ?_, rfl⟩
  · intro packet offset hoff h7 hno
    simp only [parser, if_neg (by omega : ¬ packet.length ≤ offset),
      if_neg (by omega : ¬ packet.length ≤ 7)]
    rw [findHeader_none_of packet (packet.length - 1 - offset) offset
      (fun j hj1 hj2 => hno j hj1 (by omega))]
  · intro packet offset pd h t hok
    by_cases hoff : packet.length ≤ offset
    · simp only [parser, if_pos hoff] at hok
      exact absurd hok (by simp)
    · by_cases h7 : packet.length ≤ 7
      · simp only [parser, if_neg hoff, if_pos h7] at hok
        exact absurd hok (by simp)
      · simp only [parser, if_neg hoff, if_neg h7] at hok
        cases hfind : findHeader packet offset (packet.length - 1 - offset) with
        | none => rw [hfind] at hok; exact absurd hok (by simp)
        | some p =>
          rw [hfind] at hok
          obtain ⟨hle, _, hA, hB, hmin⟩ :=
            findHeader_some_elim packet (packet.length - 1 - offset) offset p hfind
          have hhp : h = p := parseAt_ok_head packet p pd h t hok
          subst hhp
          exact ⟨hle, hA, hB, hmin⟩

/-- Witness for C7 on a headerless 8-byte buffer. -/
theorem c7_header_search_witness :
    parser [0, 0, 0, 0, 0, 0, 0, 0] 0 = .error "Header does not exist." :=
  c7_header_search.1 [0, 0, 0, 0, 0, 0, 0, 0] 0 (by decide) (by decide)
    (by
      intro j hj0 hj1 hpair
      obtain ⟨hp1, _⟩ := hpair
      have hj7 : j < 7 := by simp at hj1; omega
      interval_cases j <;> simp [List.getD] at hp1)

/-! ## Memory safety of the scan (C8) -/

theorem get?_eq_getD (l : List ℕ) (i : ℕ) (h : i < l.length) :
    l.get? i = some (l.getD i 0) := by
  induction l generalizing i with
  | nil => simp at h
  | cons x xs ih =>
    cases i with
    | zero => rfl
    | succ n => exact ih n (by simpa using h)

theorem drop_eq_getD_cons (l : List ℕ) (n : ℕ) (h : n < l.length) :
    l.drop n = l.getD n 0 :: l.drop (n + 1) := by
  induction l generalizing n with
  | nil => simp at h
  | cons x xs ih =>
    cases n with
    | zero => simp
    | succ m => simpa using ih m (by simpa using h)

/-- When the whole range is in bounds, the instrumented payload copy
succeeds and agrees with the slice the total model takes. -/
theorem readBytes_eq (packet : List ℕ) :
    ∀ (count start : ℕ), start + count ≤ packet.length →
      readBytes packet start count = some ((packet.drop start).take count) := by
  intro count
  induction count with
  | zero => intro start _; simp [readBytes]
  | succ n ih =>
    intro start h
    simp only [readBytes, get?_eq_getD packet start (by omega), ih (start + 1) (by omega),
      drop_eq_getD_cons packet start (by omega), List.take_succ_cons]

/-- When the loop range keeps every read in bounds (which the source's
`for _ in offset..(packet_len - 1)` bound guarantees), the instrumented
header search never panics and agrees with the total model. -/
theorem findHeaderS_eq (packet : List ℕ) :
    ∀ (fuel i : ℕ), i + fuel < packet.length →
      findHeaderS packet i fuel = some (findHeader packet i fuel) := by
  intro fuel
  induction fuel with
  | zero => intro i _; rfl
  | succ n ih =>
    intro i h
    simp only [findHeaderS, findHeader,
      get?_eq_getD packet i (by omega), get?_eq_getD packet (i + 1) (by omega)]
    by_cases ha : packet.getD i 0 = 0xA5
    · by_cases hb : packet.getD (i + 1) 0 = 0x5A
      · rw [if_pos ha, if_pos hb, if_pos ⟨ha, hb⟩]
      · rw [if_pos ha, if_neg hb, if_neg (fun hab => hb hab.2), ih (i + 1) (by omega)]
    · rw [if_neg ha, if_neg (fun hab => ha hab.1), ih (i + 1) (by omega)]

/-- The instrumented field walk never panics: every read the source
performs after the header match is covered by one of its two explicit
remaining-length checks. -/
theorem parseAtS_eq (packet : List ℕ) (p : ℕ) :
    parseAtS packet p = some (parseAt packet p) := by
  by_cases c1 : packet.length - (p + 2) < 3
  · simp only [parseAtS, parseAt, if_pos c1]
  · simp only [parseAtS, parseAt, if_neg c1, get?_eq_getD packet (p + 2) (by omega)]
    by_cases c2 : packet.getD (p + 2) 0 &&& 0x80 = 0x80
    · simp only [if_neg (not_not_intro c2), get?_eq_getD packet (p + 2 + 1) (by omega)]
      by_cases c3 : ((packet.getD (p + 2) 0 &&& 0x7F) <<< 8) ||| packet.getD (p + 2 + 1) 0 = 0
      · simp only [if_pos c3]
      · simp only [if_neg c3, get?_eq_getD packet (p + 2 + 2) (by omega)]
        by_cases c4 : packet.getD (p + 2 + 2) 0 = 0xA0
        · simp only [if_neg (not_not_intro c4)]
          by_cases c5 : packet.length - (p + 2 + 2) <
              (((packet.getD (p + 2) 0 &&& 0x7F) <<< 8) ||| packet.getD (p + 2 + 1) 0) + 3
          · simp only [if_pos c5]
          · simp only [if_neg c5,
              readBytes_eq packet
                (((packet.getD (p + 2) 0 &&& 0x7F) <<< 8) ||| packet.getD (p + 2 + 1) 0)
                (p + 2 + 3) (by omega),
              get?_eq_getD packet
                (p + 2 + 3 + (((packet.getD (p + 2) 0 &&& 0x7F) <<< 8) |||
                  packet.getD (p + 2 + 1) 0)) (by omega),
              get?_eq_getD packet
                (p + 2 + 4 + (((packet.getD (p + 2) 0 &&& 0x7F) <<< 8) |||
                  packet.getD (p + 2 + 1) 0)) (by omega)]
            by_cases c6 : calc_checksum ((packet.drop (p + 2 + 3)).take
                (((packet.getD (p + 2) 0 &&& 0x7F) <<< 8) ||| packet.getD (p + 2 + 1) 0)) ^^^
                packet.getD (p + 2 + 3 + (((packet.getD (p + 2) 0 &&& 0x7F) <<< 8) |||
                  packet.getD (p + 2 + 1) 0)) 0 = 0
            · simp only [if_neg (not_not_intro c6)]
              by_cases c7 : packet.getD
                  (p + 2 + 4 + (((packet.getD (p + 2) 0 &&& 0x7F) <<< 8) |||
                    packet.getD (p + 2 + 1) 0)) 0 = 0x04
              · simp only [if_neg (not_not_intro c7)]
              · simp only [if_pos c7]
            · simp only [if_pos c6]
        · simp only [if_pos c4]
    · simp only [if_pos c2]

/-- C8: the scan is total and memory safe — on every buffer and offset
the instrumented scanner, whose every read goes through `List.get?` and
which aborts with `none` on any out-of-bounds read (the model of a Rust
index panic), never aborts and returns exactly the result of `parser`. -/
theorem c8_memory_safety (packet : List ℕ) (offset : ℕ) :
    parserS packet offset = some (parser packet offset) := by
  by_cases h1 : packet.length ≤ offset
  · simp only [parserS, parser, if_pos h1]
  · by_cases h2 : packet.length ≤ 7
    · simp only [parserS, parser, if_neg h1, if_pos h2]
    · have hfS : findHeaderS packet offset (packet.length - 1 - offset)
          = some (findHeader packet offset (packet.length - 1 - offset)) :=
        findHeaderS_eq packet (packet.length - 1 - offset) offset (by omega)
      simp only [parserS, parser, if_neg h1, if_neg h2, hfS]
      cases hf : findHeader packet offset (packet.length - 1 - offset) with
      | none => rfl
      | some p => exact parseAtS_eq packet p

set_option maxRecDepth 10000 in
/-- C10: the decoder does not enforce the encoder's 127-byte maximum: a
structurally valid frame whose length field decodes to 128 is accepted
with a 128-byte payload, although `make_packet` rejects that payload. -/
theorem c10_oversize_length_accepted :
    parser ([0xA5, 0x5A, 0x80, 0x80, 0xA0] ++ List.replicate 128 0 ++ [0x00, 0x04]) 0
      = .ok (List.replicate 128 0, 0, 134) ∧
    127 < (List.replicate 128 (0 : ℕ)).length ∧
    (make_packet (List.replicate 128 0)).1 =
      .error "The data size exceeds the maximum value that can be sent in this packet." :=
  ⟨rfl, by simp, rfl⟩

end SerialPacket
